import Mathlib

/-!
Shallow embedding of `youtube_transcript_downloader.py` and verification of
its specification claims.

Python strings are modelled as Lean `String`s; the single-character
`str.replace` and `[:n]` slicing used by the program operate on code points,
so they are embedded through `String.data` (a `List Char`).  The filesystem
is an association list from paths to file contents.  The transcript provider
(`YouTubeTranscriptApi.get_transcript`) is an oracle mapping the index of the
call made by one `parse_video` invocation to its outcome; file writes may be
told to fail on given paths through a `writeFails` oracle.  Python `dict`s
(string keys) are association lists with first-insertion position and
last-value-wins semantics.  Exceptions are explicit: `parse_video` returns a
record whose `exc` field holds the exception escaping the call, if any.
-/

namespace YTD

/-- Python `s.replace(old, new)` for single-character `old`/`new`, which is a
    code-point-wise map. -/
def pyReplace (s : String) (old new : Char) : String :=
  String.mk (s.data.map (fun c => if c = old then new else c))

/-- Python `s[:n]` slicing (first `n` code points). -/
def pySlice (s : String) (n : Nat) : String :=
  String.mk (s.data.take n)

/-- Python `os.path.join(d, f)` for the shapes arising here: an absolute
    second component wins, otherwise one separator is inserted unless the
    first component is empty or already ends in a separator. -/
def osPathJoin (d f : String) : String :=
  if f.data.head? = some '/' then f
  else if d.data.getLast? = some '/' ∨ d.data = [] then d ++ f
  else d ++ "/" ++ f

/-- One transcript line as returned by the transcript API; the program only
    reads its `text` field (`line['text']`, line 147). -/
structure TLine where
  text : String
deriving DecidableEq, Repr

/-- Outcome of one `YouTubeTranscriptApi.get_transcript(video_id)` call:
    a transcript, or one of the exceptions distinguished by lines 131-142. -/
inductive FetchResult where
  | ok (transcript : List TLine)
  | disabled
  | notFound
  | err (msg : String)
deriving DecidableEq, Repr

/-- The `video_info` dict handed to `parse_video`; each field is `none` when
    the corresponding key is missing from the dict. -/
structure VideoDict where
  id : Option String
  title : Option String
  publishedAt : Option String
  url : Option String
deriving DecidableEq, Repr

/-- Python exceptions that can escape `parse_video`. -/
inductive PyExc where
  | keyError (key : String)
  | unboundLocal (name : String)
deriving DecidableEq, Repr

/-- The log lines printed by `parse_video` (lines 126, 132, 138, 141, 149, 152). -/
inductive LogEvent where
  | trying (path : String)
  | noTranscripts (url title : String)
  | errTranslated (url title : String)
  | unknownError (title : String)
  | saved (url path : String)
  | outerError (url title : String)
deriving DecidableEq, Repr

/-- A filesystem: association list from file path to file contents. -/
abbrev FS := List (String × String)

/-- Python `os.path.exists(p)` on the modelled filesystem. -/
def fsExists (fs : FS) (p : String) : Bool :=
  fs.any (fun e => e.1 = p)

/-- Contents of the file at `p`, if present. -/
def fsRead (fs : FS) (p : String) : Option String :=
  (fs.find? (fun e => e.1 = p)).map (fun e => e.2)

/-- Python `open(p, 'w')` followed by writing `c`: replaces an existing entry,
    otherwise creates one. -/
def fsWrite (fs : FS) (p c : String) : FS :=
  if fs.any (fun e => e.1 = p) then
    fs.map (fun e => if e.1 = p then (p, c) else e)
  else
    fs ++ [(p, c)]

/-- Number of filesystem entries at path `p`. -/
def fsCount (fs : FS) (p : String) : Nat :=
  List.count p (fs.map Prod.fst)

/-- Line 113: `video_info['title'].replace(' ', '_').replace('/', '_')`. -/
def sanitizeTitle (title : String) : String :=
  pyReplace (pyReplace title ' ' '_') '/' '_'

/-- Lines 114-115: `video_info['publishedAt'].replace(':', '-').replace('.', '-')[:10]`. -/
def datePart (publishedAt : String) : String :=
  pySlice (pyReplace (pyReplace publishedAt ':' '-') '.' '-') (String.length "yyyy-mm-dd")

/-- Line 116: the composite `video_title` used for naming and logging. -/
def videoTitleOf (title publishedAt : String) : String :=
  datePart publishedAt ++ "_" ++ sanitizeTitle title

/-- Line 119: the target file path `os.path.join(dir_path, f'{video_title}.txt')`. -/
def filePathOf (dirPath title publishedAt : String) : String :=
  osPathJoin dirPath (videoTitleOf title publishedAt ++ ".txt")

/-- Line 147: the file contents, `f"{line['text']} "` written per line. -/
def transcriptText (transcript : List TLine) : String :=
  String.join (transcript.map (fun line => line.text ++ " "))

/-- Result of one `parse_video` invocation: final filesystem, log lines in
    order, the video ids fetched over the network in call order, and the
    exception escaping the call (if any). -/
structure ParseResult where
  fs : FS
  logs : List LogEvent
  netCalls : List String
  exc : Option PyExc
deriving DecidableEq, Repr

/-- The `except Exception` handler of line 151-152.  Its f-string first reads
    `video_info["url"]` (KeyError escapes if absent), then `video_title`
    (UnboundLocalError escapes if the exception was raised before line 113
    completed); otherwise the error is logged and the call returns normally.
    `vt?` is the value bound to `video_title` at the point the handled
    exception was raised. -/
def outerHandler (video_info : VideoDict) (vt? : Option String)
    (fs : FS) (logs : List LogEvent) (netCalls : List String) : ParseResult :=
  match video_info.url with
  | none => ⟨fs, logs, netCalls, some (PyExc.keyError "url")⟩
  | some url =>
    match vt? with
    | none => ⟨fs, logs, netCalls, some (PyExc.unboundLocal "video_title")⟩
    | some vt => ⟨fs, logs ++ [LogEvent.outerError url vt], netCalls, none⟩

/-- Lines 144-149: write the fetched transcript and log success.  `netCalls`
    lists the network calls made so far.  `open` may raise (modelled by
    `writeFails`); the success print at line 149 reads `video_info["url"]`,
    so a missing `url` key raises KeyError after the file is written, which
    the outer handler turns into an escaping KeyError re-raised at line 152. -/
def writeTranscript (video_info : VideoDict) (video_title file_path : String)
    (transcript : List TLine) (fs : FS) (logs : List LogEvent)
    (netCalls : List String) (writeFails : String → Bool) : ParseResult :=
  if writeFails file_path then
    outerHandler video_info (some video_title) fs logs netCalls
  else
    let fs' := fsWrite fs file_path (transcriptText transcript)
    match video_info.url with
    | none => outerHandler video_info (some video_title) fs' logs netCalls
    | some url =>
      ⟨fs', logs ++ [LogEvent.saved url file_path], netCalls, none⟩

/-- `parse_video(video_info, dir_path)` (lines 95-152), the synchronous body
    run by the `@background` executor task.

    Line 109 reads `video_info['id']` before the `try`, so a missing `id`
    raises straight past the call.  Inside the `try`, the title and
    publishedAt lookups can raise KeyError into the outer handler; after the
    path is derived, a pre-existing file returns at once with no network
    call.  The inner `try` of lines 128-142 maps each provider outcome to
    its handler: disabled logs and returns; not-found retries once (lines
    134-139) and logs-and-returns if the second call raises anything; any
    other error logs and returns.  A fetched transcript is then written. -/
def parse_video (video_info : VideoDict) (dir_path : String) (fs : FS)
    (provider : Nat → FetchResult) (writeFails : String → Bool) : ParseResult :=
  match video_info.id with
  | none => ⟨fs, [], [], some (PyExc.keyError "id")⟩
  | some video_id =>
    match video_info.title with
    | none => outerHandler video_info none fs [] []
    | some title =>
      let sanitized := sanitizeTitle title
      match video_info.publishedAt with
      | none => outerHandler video_info (some sanitized) fs [] []
      | some publishedAt =>
        let video_title := datePart publishedAt ++ "_" ++ sanitized
        let file_path := osPathJoin dir_path (video_title ++ ".txt")
        if fsExists fs file_path then
          ⟨fs, [], [], none⟩
        else
          let logs := [LogEvent.trying file_path]
          match provider 0 with
          | FetchResult.disabled =>
            match video_info.url with
            | none => outerHandler video_info (some video_title) fs logs [video_id]
            | some url =>
              ⟨fs, logs ++ [LogEvent.noTranscripts url video_title], [video_id], none⟩
          | FetchResult.notFound =>
            match provider 1 with
            | FetchResult.ok transcript =>
              writeTranscript video_info video_title file_path transcript
                fs logs [video_id, video_id] writeFails
            | _ =>
              match video_info.url with
              | none => outerHandler video_info (some video_title) fs logs [video_id, video_id]
              | some url =>
                ⟨fs, logs ++ [LogEvent.errTranslated url video_title], [video_id, video_id], none⟩
          | FetchResult.err _ =>
            ⟨fs, logs ++ [LogEvent.unknownError video_title], [video_id], none⟩
          | FetchResult.ok transcript =>
            writeTranscript video_info video_title file_path transcript
              fs logs [video_id] writeFails

/-- One playlist item of a `playlistItems().list` response (lines 79-86):
    the fields the program reads from `item["snippet"]`. -/
structure PlaylistItem where
  videoId : String
  title : String
  publishedAt : String
deriving DecidableEq, Repr

/-- One `playlistItems().list` response page: its items and the optional
    `nextPageToken` (lines 77, 88). -/
structure Page where
  items : List PlaylistItem
  nextPageToken : Option String
deriving DecidableEq, Repr

/-- The video descriptor appended at lines 81-86. -/
structure VideoInfo where
  url : String
  id : String
  title : String
  publishedAt : String
deriving DecidableEq, Repr

/-- Lines 80-86: build a descriptor from a playlist item, constructing the
    watch URL from the video id. -/
def toVideoInfo (item : PlaylistItem) : VideoInfo :=
  { url := "https://www.youtube.com/watch?v=" ++ item.videoId
    id := item.videoId
    title := item.title
    publishedAt := item.publishedAt }

/-- The `while True` pagination loop of `get_video_info` (lines 68-91).  The
    playlist API is modelled as the stream `pages` of responses returned to
    successive requests; `acc` is the `video_info` list accumulated so far.
    Returns the final `video_info` list and the number of page requests
    made.  Each iteration appends the page's items and stops when the
    response carries no `nextPageToken` or the accumulated length has
    reached `maxResults`; if the response stream is exhausted without either
    condition, no further request can be answered and the loop is cut off
    there (a mocked API would fail at that point). -/
def pageLoop (maxResults : Nat) : List Page → List VideoInfo → List VideoInfo × Nat
  | [], acc => (acc, 0)
  | page :: rest, acc =>
    let acc' := acc ++ page.items.map toVideoInfo
    if page.nextPageToken = none ∨ maxResults ≤ acc'.length then
      (acc', 1)
    else
      let r := pageLoop maxResults rest acc'
      (r.1, r.2 + 1)

/-- `get_video_info(api_key, channel_id, max_results)` (lines 41-92),
    abstracted over the stream of playlist pages the API returns; the
    initial uploads-playlist lookup does not affect the returned list. -/
def get_video_info (pages : List Page) (maxResults : Nat) : List VideoInfo × Nat :=
  pageLoop maxResults pages []

/-- Insertion into a Python `dict`: a repeated key keeps its original
    position but takes the new value; a fresh key is appended. -/
def dictInsert {α β : Type} [DecidableEq α] (d : List (α × β)) (k : α) (v : β) :
    List (α × β) :=
  if d.any (fun e => e.1 = k) then
    d.map (fun e => if e.1 = k then (k, v) else e)
  else
    d ++ [(k, v)]

/-- Python `d.get(k)` / `d[k]` on the modelled dict. -/
def dictLookup {α β : Type} [DecidableEq α] (d : List (α × β)) (k : α) : Option β :=
  (d.find? (fun e => e.1 = k)).map (fun e => e.2)

/-- Line 203: `{get_channel_id(api_key, name): name for name in yt_channels}`.
    `resolve` abstracts `get_channel_id`, which returns `None` when the
    search yields no matching channel. -/
def buildChannelDict (resolve : String → Option String) (ytChannels : List String) :
    List (Option String × String) :=
  ytChannels.foldl (fun d name => dictInsert d (resolve name) name) []

/-- Observable orchestration events of `run` (lines 206-226): a
    `get_video_info` call for a channel id, the submission of one
    `parse_video` executor task (line 225 builds them all, the `*tasks`
    unpacking at line 226 submits every one before the loop blocks), and
    the join barrier `loop.run_until_complete(asyncio.gather(*tasks))`
    which returns only when every submitted task of the channel has
    completed. -/
inductive RunEvent where
  | enumerateChannel (channelId : Option String)
  | launch (video : VideoInfo) (dirPath : String)
  | barrier (channelId : Option String)
deriving DecidableEq, Repr

/-- The body of `run`'s per-channel loop (lines 206-226) as an event
    segment: enumerate the channel, submit one task per video against the
    per-channel directory `data/<name>`, then wait for all of them. -/
def channelSegment (enumerate : Option String → List VideoInfo)
    (entry : Option String × String) : List RunEvent :=
  [RunEvent.enumerateChannel entry.1]
    ++ (enumerate entry.1).map (fun v => RunEvent.launch v ("data" ++ "/" ++ entry.2))
    ++ [RunEvent.barrier entry.1]

/-- `run(api_key, yt_channels)` (lines 192-226) as the ordered trace of its
    orchestration events.  `resolve` abstracts `get_channel_id` and
    `enumerate` abstracts what `get_video_info` returns for a channel id
    (the id may be `None`: unresolved names stay in the dict and are
    iterated like any other entry).  Directory creation (lines 212-219) has
    no observable effect modelled here. -/
def run (resolve : String → Option String)
    (enumerate : Option String → List VideoInfo)
    (ytChannels : List String) : List RunEvent :=
  let yt_id_name := buildChannelDict resolve ytChannels
  yt_id_name.foldl
    (fun trace entry =>
      let video_info_list := enumerate entry.1
      let dir_path := "data" ++ "/" ++ entry.2
      trace ++ [RunEvent.enumerateChannel entry.1]
        ++ video_info_list.map (fun v => RunEvent.launch v dir_path)
        ++ [RunEvent.barrier entry.1])
    []

/-- The naming rule as the specification words it: the first 10 characters
    of `publishedAt` with the colon and dot characters replaced by a dash,
    an underscore, the title with spaces and slashes replaced by
    underscores, and a `.txt` suffix.  Stated here to be compared with the
    source-side rule (`videoTitleOf`/`filePathOf`), which replaces before
    slicing. -/
def specFileName (title publishedAt : String) : String :=
  pyReplace (pyReplace (pySlice publishedAt 10) ':' '-') '.' '-'
    ++ "_" ++ pyReplace (pyReplace title ' ' '_') '/' '_' ++ ".txt"

/-- Demo channel resolver used by concrete witnesses. -/
def demoResolve : String → Option String :=
  fun name => if name = "chanA" then some "idA" else none

/-- Demo per-channel enumeration used by concrete witnesses. -/
def demoEnum : Option String → List VideoInfo :=
  fun cid =>
    if cid = some "idA" then
      [⟨"https://www.youtube.com/watch?v=v1", "v1", "T1", "2023-01-01T00:00:00Z"⟩]
    else []

/-- Demo playlist-API response stream used by concrete witnesses: three
    pages of two items each carrying continuation tokens, then a final page
    with no token. -/
def demoPages : List Page :=
  [⟨[⟨"a", "ta", "2023-01-01"⟩, ⟨"b", "tb", "2023-01-02"⟩], some "t1"⟩,
   ⟨[⟨"c", "tc", "2023-01-03"⟩, ⟨"d", "td", "2023-01-04"⟩], some "t2"⟩,
   ⟨[⟨"e", "te", "2023-01-05"⟩, ⟨"f", "tf", "2023-01-06"⟩], some "t3"⟩,
   ⟨[], none⟩]

/-! ## Helper lemmas about the modelled filesystem -/

lemma fsExists_append_self (fs : FS) (p c : String) :
    fsExists (fs ++ [(p, c)]) p = true := by
  simp [fsExists]

lemma fsWrite_of_not_exists (fs : FS) (p c : String)
    (h : fsExists fs p = false) : fsWrite fs p c = fs ++ [(p, c)] := by
  rw [fsWrite]
  rw [fsExists] at h
  simp [h]

lemma fsCount_of_not_exists (fs : FS) (p : String)
    (h : fsExists fs p = false) : fsCount fs p = 0 := by
  rw [fsCount, List.count_eq_zero]
  intro hmem
  rw [fsExists] at h
  simp only [List.any_eq_false, decide_eq_true_eq] at h
  obtain ⟨e, he, rfl⟩ := List.mem_map.mp hmem
  exact h e he rfl

lemma fsCount_append_one (fs : FS) (p c : String) :
    fsCount (fs ++ [(p, c)]) p = fsCount fs p + 1 := by
  simp [fsCount, List.count_append]

lemma fsRead_append_self (fs : FS) (p c : String)
    (h : fsExists fs p = false) : fsRead (fs ++ [(p, c)]) p = some c := by
  rw [fsRead, List.find?_append]
  have hnone : List.find? (fun e => e.1 = p) fs = none := by
    rw [List.find?_eq_none]
    intro e he
    rw [fsExists] at h
    simp only [List.any_eq_false, decide_eq_true_eq] at h
    simp [h e he]
  simp [hnone]

/-! ## Helper lemmas about the naming strings -/

lemma datePart_slice_first (p : String) :
    datePart p = pyReplace (pyReplace (pySlice p 10) ':' '-') '.' '-' := by
  apply String.ext
  have h10 : String.length "yyyy-mm-dd" = 10 := rfl
  simp [datePart, pySlice, pyReplace, List.map_take, h10]

lemma contains_map_ne (f : Char → Char) (a : Char) (h : ∀ c, f c ≠ a)
    (l : List Char) : (l.map f).contains a = false := by
  induction l with
  | nil => rfl
  | cons c l ih =>
    simp only [List.map_cons, List.contains_cons, ih, Bool.or_false]
    simp [Ne.symm (h c)]

lemma sanitizeTitle_no_slash (t : String) :
    (sanitizeTitle t).data.contains '/' = false := by
  rw [sanitizeTitle, pyReplace]
  apply contains_map_ne
  intro c
  by_cases hc : c = '/' <;> simp [hc]

lemma sanitizeTitle_no_space (t : String) :
    (sanitizeTitle t).data.contains ' ' = false := by
  rw [sanitizeTitle, pyReplace, pyReplace]
  show ((t.data.map _).map _).contains ' ' = false
  rw [List.map_map]
  apply contains_map_ne
  intro c
  by_cases h1 : c = ' '
  · simp [Function.comp, h1]
  · by_cases h2 : c = '/' <;> simp [Function.comp, h1, h2]

lemma intercalate_go_eq (as : List String) : ∀ (acc s : String),
    String.intercalate.go acc s as = acc ++ String.join (as.map (fun a => s ++ a)) := by
  induction as with
  | nil =>
    intro acc s
    apply String.ext
    simp [String.intercalate.go, String.join_eq]
  | cons a as ih =>
    intro acc s
    rw [show String.intercalate.go acc s (a :: as) = String.intercalate.go (acc ++ s ++ a) s as
        from rfl,
      ih]
    apply String.ext
    simp [String.join_eq]

lemma flatten_trailing_sep (s : List Char) (xs : List (List Char)) : ∀ (a : List Char),
    (a ++ s) ++ (xs.map (fun b => b ++ s)).flatten
      = a ++ (xs.map (fun b => s ++ b)).flatten ++ s := by
  induction xs with
  | nil => intro a; simp
  | cons b xs ih =>
    intro a
    have h := ih (a ++ s ++ b)
    simp only [List.map_cons, List.flatten_cons, List.append_assoc] at h ⊢
    exact h

lemma transcriptText_intercalate (ts : List TLine) (h : ts ≠ []) :
    transcriptText ts = String.intercalate " " (ts.map TLine.text) ++ " " := by
  obtain ⟨x, xs, rfl⟩ := List.exists_cons_of_ne_nil h
  rw [transcriptText, List.map_cons, List.map_cons,
    show String.intercalate " " (x.text :: xs.map TLine.text)
      = String.intercalate.go x.text " " (xs.map TLine.text) from rfl,
    intercalate_go_eq]
  apply String.ext
  have hsp : (" " : String).data = [' '] := rfl
  simp only [String.join_eq, String.data_append, List.map_map, List.map_cons,
    List.flatten_cons, hsp]
  have h2 := flatten_trailing_sep [' '] (xs.map (fun l => l.text.data)) x.text.data
  simp only [List.map_map] at h2 ⊢
  simp only [List.append_assoc] at h2 ⊢
  convert h2 using 2

/-! ## Helper lemma characterising the pagination loop -/

lemma pageLoop_spec (maxR : Nat) (pages : List Page) : ∀ (acc : List VideoInfo),
    (pageLoop maxR pages acc).1
        = acc ++ ((pages.take (pageLoop maxR pages acc).2).flatMap Page.items).map toVideoInfo
    ∧ (pageLoop maxR pages acc).2 ≤ pages.length
    ∧ (pages ≠ [] → 0 < (pageLoop maxR pages acc).2)
    ∧ (∀ j pg, j + 1 < (pageLoop maxR pages acc).2 → pages[j]? = some pg →
        pg.nextPageToken ≠ none
        ∧ (acc ++ ((pages.take (j + 1)).flatMap Page.items).map toVideoInfo).length < maxR)
    ∧ ((pageLoop maxR pages acc).2 < pages.length →
        ∃ pg, pages[(pageLoop maxR pages acc).2 - 1]? = some pg
          ∧ (pg.nextPageToken = none ∨ maxR ≤ (pageLoop maxR pages acc).1.length)) := by
  induction pages with
  | nil =>
    intro acc
    refine ⟨by simp [pageLoop], by simp [pageLoop], by simp, ?_, by simp [pageLoop]⟩
    intro j pg hj
    simp [pageLoop] at hj
  | cons page rest ih =>
    intro acc
    by_cases hstop : page.nextPageToken = none ∨ maxR ≤ (acc ++ page.items.map toVideoInfo).length
    · have hr : pageLoop maxR (page :: rest) acc = (acc ++ page.items.map toVideoInfo, 1) := by
        simp only [pageLoop]
        rw [if_pos hstop]
      refine ⟨?_, ?_, ?_, ?_, ?_⟩
      · rw [hr]; simp
      · rw [hr]; simp
      · intro _; rw [hr]; exact Nat.zero_lt_one
      · intro j pg hj hpg
        rw [hr] at hj
        omega
      · intro _
        rw [hr]
        exact ⟨page, by simp, by simpa using hstop⟩
    · have hr : pageLoop maxR (page :: rest) acc
          = ((pageLoop maxR rest (acc ++ page.items.map toVideoInfo)).1,
             (pageLoop maxR rest (acc ++ page.items.map toVideoInfo)).2 + 1) := by
        simp only [pageLoop]
        rw [if_neg hstop]
      push_neg at hstop
      obtain ⟨htok, hlen⟩ := hstop
      obtain ⟨ih1, ih2, ih3, ih4, ih5⟩ := ih (acc ++ page.items.map toVideoInfo)
      refine ⟨?_, ?_, ?_, ?_, ?_⟩
      · rw [hr]
        simp only [List.take_succ_cons, List.flatMap_cons, List.map_append, ih1,
          List.append_assoc]
      · rw [hr]; simpa using ih2
      · intro _; rw [hr]; omega
      · intro j pg hj hpg
        rw [hr] at hj
        match j, hj with
        | 0, _ =>
          simp only [List.getElem?_cons_zero, Option.some_inj] at hpg
          subst hpg
          refine ⟨htok, ?_⟩
          simpa using hlen
        | j' + 1, hj =>
          rw [List.getElem?_cons_succ] at hpg
          have hres := ih4 j' pg (by omega) hpg
          refine ⟨hres.1, ?_⟩
          have hlist : acc ++ (((page :: rest).take (j' + 1 + 1)).flatMap Page.items).map toVideoInfo
              = (acc ++ page.items.map toVideoInfo)
                ++ ((rest.take (j' + 1)).flatMap Page.items).map toVideoInfo := by
            simp [List.take_succ_cons, List.flatMap_cons, List.append_assoc]
          rw [hlist]
          exact hres.2
      · intro hlt
        rw [hr] at hlt ⊢
        have hrest : (pageLoop maxR rest (acc ++ page.items.map toVideoInfo)).2 < rest.length := by
          simpa using hlt
        obtain ⟨pg, hpg, hcond⟩ := ih5 hrest
        have hpos : 0 < (pageLoop maxR rest (acc ++ page.items.map toVideoInfo)).2 := by
          apply ih3
          intro hnil
          rw [hnil] at hrest
          simp at hrest
        obtain ⟨m, hm⟩ : ∃ m, (pageLoop maxR rest (acc ++ page.items.map toVideoInfo)).2 = m + 1 :=
          ⟨_, (Nat.succ_pred_eq_of_pos hpos).symm⟩
        refine ⟨pg, ?_, ?_⟩
        · rw [hm]
          simp only [Nat.add_sub_cancel, List.getElem?_cons_succ]
          rw [hm] at hpg
          simpa using hpg
        · exact hcond

/-! ## Helper lemmas about Python dict building -/

lemma find?_map_replace {α β : Type} [DecidableEq α] (d : List (α × β)) (k k' : α) (v : β)
    (h : k' ≠ k) :
    List.find? (fun e => e.1 = k') (d.map (fun e => if e.1 = k then (k, v) else e))
      = List.find? (fun e => e.1 = k') d := by
  induction d with
  | nil => rfl
  | cons e d ih =>
    by_cases hek : e.1 = k
    · simp only [List.map_cons, if_pos hek, List.find?_cons]
      rw [show (decide ((k, v).1 = k') : Bool) = false by simp [Ne.symm h]]
      rw [show (decide (e.1 = k') : Bool) = false by simp [hek, Ne.symm h]]
      exact ih
    · simp only [List.map_cons, if_neg hek, List.find?_cons]
      cases hd : (decide (e.1 = k') : Bool)
      · exact ih
      · rfl

lemma find?_map_replace_self {α β : Type} [DecidableEq α] (d : List (α × β)) (k : α) (v : β)
    (h : d.any (fun e => e.1 = k) = true) :
    List.find? (fun e => e.1 = k) (d.map (fun e => if e.1 = k then (k, v) else e))
      = some (k, v) := by
  induction d with
  | nil => simp at h
  | cons e d ih =>
    by_cases hek : e.1 = k
    · simp [List.find?_cons, if_pos hek]
    · simp only [List.any_cons, Bool.or_eq_true, decide_eq_true_eq] at h
      rcases h with h | h
      · exact absurd h hek
      · simp only [List.map_cons, if_neg hek, List.find?_cons]
        rw [show (decide (e.1 = k) : Bool) = false by simp [hek]]
        exact ih h

lemma dictLookup_dictInsert {α β : Type} [DecidableEq α] (d : List (α × β)) (k k' : α) (v : β) :
    dictLookup (dictInsert d k v) k' = if k' = k then some v else dictLookup d k' := by
  by_cases hmem : d.any (fun e => e.1 = k) = true
  · rw [dictInsert, if_pos hmem]
    by_cases hk : k' = k
    · subst hk
      rw [dictLookup, find?_map_replace_self d k' v hmem, if_pos rfl]
      rfl
    · rw [dictLookup, find?_map_replace d k k' v hk, if_neg hk, dictLookup]
  · rw [dictInsert, if_neg hmem, dictLookup, List.find?_append]
    by_cases hk : k' = k
    · subst hk
      have hnone : List.find? (fun e => e.1 = k') d = none := by
        rw [List.find?_eq_none]
        intro e he
        simp only [List.any_eq_true] at hmem
        simp only [decide_eq_true_eq]
        intro hek
        exact hmem ⟨e, he, by simp [hek]⟩
      rw [hnone, if_pos rfl]
      simp [List.find?]
    · have hone : List.find? (fun e => e.1 = k') [(k, v)] = none := by
        rw [List.find?_cons]
        rw [show (decide ((k, v).1 = k') : Bool) = false by
          simp only [decide_eq_false_iff_not]
          exact fun he => hk he.symm]
        rfl
      rw [hone, if_neg hk, dictLookup]
      cases List.find? (fun e => e.1 = k') d <;> rfl

lemma dictInsert_keys {α β : Type} [DecidableEq α] (d : List (α × β)) (k : α) (v : β) :
    (dictInsert d k v).map Prod.fst
      = if d.any (fun e => e.1 = k) then d.map Prod.fst else d.map Prod.fst ++ [k] := by
  rw [dictInsert]
  split
  · rw [List.map_map]
    apply List.map_congr_left
    intro e _
    by_cases hek : e.1 = k
    · simp [Function.comp, if_pos hek, hek]
    · simp [Function.comp, if_neg hek]
  · simp

lemma dictInsert_keys_nodup {α β : Type} [DecidableEq α] (d : List (α × β)) (k : α) (v : β)
    (h : (d.map Prod.fst).Nodup) : ((dictInsert d k v).map Prod.fst).Nodup := by
  rw [dictInsert_keys]
  split
  · exact h
  · rename_i hany
    rw [List.nodup_append]
    refine ⟨h, List.nodup_singleton k, ?_⟩
    intro a ha hk
    simp only [List.mem_singleton] at hk
    subst hk
    obtain ⟨e, he, rfl⟩ := List.mem_map.mp ha
    rw [Bool.not_eq_true] at hany
    simp only [List.any_eq_false, decide_eq_true_eq] at hany
    exact hany e he rfl

lemma getLast?_cons_orElse {α : Type} (a : α) (l : List α) :
    (a :: l).getLast? = (l.getLast? <|> some a) := by
  cases l with
  | nil => rfl
  | cons b l =>
    rw [List.getLast?_cons_cons]
    cases hb : (b :: l).getLast? with
    | none => simp [List.getLast?] at hb
    | some x => simp

lemma buildChannelDict_go_lookup (resolve : String → Option String) (names : List String) :
    ∀ (d : List (Option String × String)) (k : Option String),
    dictLookup (names.foldl (fun d name => dictInsert d (resolve name) name) d) k
      = ((names.filter (fun n => resolve n == k)).getLast? <|> dictLookup d k) := by
  induction names with
  | nil => intro d k; simp
  | cons n ns ih =>
    intro d k
    rw [List.foldl_cons, ih, List.filter_cons]
    by_cases hk : resolve n = k
    · rw [if_pos (by simp [hk]), getLast?_cons_orElse, dictLookup_dictInsert, if_pos hk.symm]
      cases (ns.filter (fun n => resolve n == k)).getLast? <;> simp
    · rw [if_neg (by simp [hk]), dictLookup_dictInsert, if_neg (fun he => hk he.symm)]

lemma buildChannelDict_go_nodup (resolve : String → Option String) (names : List String) :
    ∀ (d : List (Option String × String)), (d.map Prod.fst).Nodup →
    ((names.foldl (fun d name => dictInsert d (resolve name) name) d).map Prod.fst).Nodup := by
  induction names with
  | nil => intro d h; exact h
  | cons n ns ih =>
    intro d h
    rw [List.foldl_cons]
    exact ih _ (dictInsert_keys_nodup d (resolve n) n h)

/-! ## Helper lemma about the orchestrator trace -/

lemma run_eq_flatMap (resolve : String → Option String)
    (enumerate : Option String → List VideoInfo) (names : List String) :
    run resolve enumerate names
      = (buildChannelDict resolve names).flatMap (channelSegment enumerate) := by
  rw [run]
  suffices h : ∀ (l : List (Option String × String)) (init : List RunEvent),
      (l.foldl (fun trace entry =>
        trace ++ [RunEvent.enumerateChannel entry.1]
          ++ (enumerate entry.1).map (fun v => RunEvent.launch v ("data" ++ "/" ++ entry.2))
          ++ [RunEvent.barrier entry.1]) init)
        = init ++ l.flatMap (channelSegment enumerate) by
    simpa using h (buildChannelDict resolve names) []
  intro l
  induction l with
  | nil => intro init; simp
  | cons e l ih =>
    intro init
    rw [List.foldl_cons, ih]
    simp [channelSegment, List.append_assoc]

/-! ## Claim theorems -/

/-- Claim C1 counterexample: the claim that `parse_video` never raises past
    its own boundary fails for malformed descriptors — a `video_info` dict
    with no `id` key makes line 109 (`video_id = video_info['id']`, outside
    the `try`) raise a KeyError straight past the call. -/
theorem parse_video_missing_id_raises :
    (parse_video ⟨none, some "Title", some "2023-01-01T00:00:00Z", some "u0"⟩ "data" []
        (fun _ => FetchResult.disabled) (fun _ => false)).exc
      = some (PyExc.keyError "id") := by
  decide

/-- Claim C1 (amended): for every descriptor that carries the `id`, `title`
    and `url` keys, and for every directory, filesystem, transcript-provider
    behaviour and file-write behaviour, no exception escapes `parse_video`:
    malformed-but-keyed descriptors, every fetch failure and every
    file-write failure are converted to a logged return. -/
theorem parse_video_wellformed_never_raises (v : VideoDict) (dir : String) (fs : FS)
    (provider : Nat → FetchResult) (writeFails : String → Bool)
    (hid : v.id.isSome = true) (ht : v.title.isSome = true) (hu : v.url.isSome = true) :
    (parse_video v dir fs provider writeFails).exc = none := by
  obtain ⟨i?, t?, p?, u?⟩ := v
  cases i? with
  | none => simp at hid
  | some i =>
  cases t? with
  | none => simp at ht
  | some t =>
  cases u? with
  | none => simp at hu
  | some u =>
  cases p? with
  | none => simp [parse_video, outerHandler]
  | some p =>
  simp only [parse_video]
  split
  · rfl
  · cases h0 : provider 0 with
    | ok ts => simp [writeTranscript, outerHandler]; split <;> simp
    | disabled => simp [outerHandler]
    | notFound =>
      cases h1 : provider 1 with
      | ok ts => simp [h1, writeTranscript, outerHandler]; split <;> simp
      | disabled => simp [h1, outerHandler]
      | notFound => simp [h1, outerHandler]
      | err m => simp [h1, outerHandler]
    | err m => simp

/-- Claim C1 witness: a keyed descriptor with an erroring provider and a
    failing file write still returns with no escaping exception. -/
theorem parse_video_wellformed_never_raises_witness :
    (parse_video ⟨some "v1", some "T", some "2023-01-01", some "u"⟩ "data" []
        (fun _ => FetchResult.err "boom") (fun _ => true)).exc = none :=
  parse_video_wellformed_never_raises ⟨some "v1", some "T", some "2023-01-01", some "u"⟩
    "data" [] (fun _ => FetchResult.err "boom") (fun _ => true) rfl rfl rfl

/-- Claim C2 evidence: a channel name whose resolution yields the absent
    identifier is NOT dropped by `run` — the `None` key stays in the
    id-to-name dict and the per-channel loop still calls `get_video_info`
    for it, as the `enumerateChannel none` event in the trace shows. -/
theorem run_unresolved_channel_enumerated :
    run (fun _ => none) (fun _ => []) ["NoSuchChannelXYZ"]
      = [RunEvent.enumerateChannel none, RunEvent.barrier none] := by
  decide

/-- Claim C3 counterexample: with a transcript-disabled video, the first
    fetch-and-save run writes no file, so the two runs together leave zero
    (not exactly one) files at the derived path and the second run performs
    one network call (not zero). -/
theorem fetch_twice_not_idempotent_on_failure :
    (parse_video ⟨some "vidX", some "T", some "2023-01-01", some "u"⟩ "data" []
        (fun _ => FetchResult.disabled) (fun _ => false)).fs = []
    ∧ (parse_video ⟨some "vidX", some "T", some "2023-01-01", some "u"⟩ "data"
        (parse_video ⟨some "vidX", some "T", some "2023-01-01", some "u"⟩ "data" []
          (fun _ => FetchResult.disabled) (fun _ => false)).fs
        (fun _ => FetchResult.disabled) (fun _ => false)).netCalls = ["vidX"]
    ∧ fsCount ([] : FS) (filePathOf "data" "T" "2023-01-01") = 0 := by
  refine ⟨by decide, by decide, by decide⟩

/-- Claim C3 (amended): when the file is initially absent, the fetch
    succeeds and the write does not fail, running fetch-and-save twice
    leaves exactly one file at the derived path; the second run returns
    immediately with zero network calls and leaves the filesystem — hence
    the file's contents — unchanged. -/
theorem fetch_and_save_idempotent_after_success (i t p u dir : String) (fs : FS)
    (ts : List TLine) (provider : Nat → FetchResult) (writeFails : String → Bool)
    (hne : fsExists fs (filePathOf dir t p) = false)
    (hok : provider 0 = FetchResult.ok ts)
    (hw : writeFails (filePathOf dir t p) = false) :
    (parse_video ⟨some i, some t, some p, some u⟩ dir fs provider writeFails).fs
        = fs ++ [(filePathOf dir t p, transcriptText ts)]
    ∧ fsCount (parse_video ⟨some i, some t, some p, some u⟩ dir fs provider writeFails).fs
        (filePathOf dir t p) = 1
    ∧ parse_video ⟨some i, some t, some p, some u⟩ dir
        (parse_video ⟨some i, some t, some p, some u⟩ dir fs provider writeFails).fs
        provider writeFails
      = ⟨(parse_video ⟨some i, some t, some p, some u⟩ dir fs provider writeFails).fs,
         [], [], none⟩ := by
  have hpath : osPathJoin dir (datePart p ++ "_" ++ sanitizeTitle t ++ ".txt")
      = filePathOf dir t p := rfl
  have h1 : parse_video ⟨some i, some t, some p, some u⟩ dir fs provider writeFails
      = ⟨fs ++ [(filePathOf dir t p, transcriptText ts)],
         [LogEvent.trying (filePathOf dir t p), LogEvent.saved u (filePathOf dir t p)],
         [i], none⟩ := by
    simp only [parse_video, hpath, hne, hok]
    simp [writeTranscript, hw, fsWrite_of_not_exists fs _ _ hne]
  refine ⟨by rw [h1], ?_, ?_⟩
  · rw [h1]
    simp only [fsCount_append_one, fsCount_of_not_exists fs _ hne]
  · rw [h1]
    simp only [parse_video, hpath]
    rw [show fsExists (fs ++ [(filePathOf dir t p, transcriptText ts)]) (filePathOf dir t p)
        = true from fsExists_append_self fs _ _]
    simp

/-- Claim C3 witness: concrete successful run, then a second run that skips. -/
theorem fetch_and_save_idempotent_after_success_witness :
    fsCount (parse_video ⟨some "v3", some "My Video", some "2023-04-05T12:00:00.000Z", some "u3"⟩
        "data" [] (fun _ => FetchResult.ok [⟨"hi"⟩]) (fun _ => false)).fs
        (filePathOf "data" "My Video" "2023-04-05T12:00:00.000Z") = 1
    ∧ parse_video ⟨some "v3", some "My Video", some "2023-04-05T12:00:00.000Z", some "u3"⟩
        "data"
        (parse_video ⟨some "v3", some "My Video", some "2023-04-05T12:00:00.000Z", some "u3"⟩
          "data" [] (fun _ => FetchResult.ok [⟨"hi"⟩]) (fun _ => false)).fs
        (fun _ => FetchResult.ok [⟨"hi"⟩]) (fun _ => false)
      = ⟨(parse_video ⟨some "v3", some "My Video", some "2023-04-05T12:00:00.000Z", some "u3"⟩
          "data" [] (fun _ => FetchResult.ok [⟨"hi"⟩]) (fun _ => false)).fs, [], [], none⟩ := by
  have h := fetch_and_save_idempotent_after_success "v3" "My Video"
    "2023-04-05T12:00:00.000Z" "u3" "data" [] [⟨"hi"⟩]
    (fun _ => FetchResult.ok [⟨"hi"⟩]) (fun _ => false) rfl rfl rfl
  exact ⟨h.2.1, h.2.2⟩

/-- Claim C4: the file-naming rule matches the specification's reading
    (slice the first ten characters of publishedAt, then replace colon and
    dot with a dash; underscore; title with spaces and slashes replaced;
    `.txt`), the sanitized title segment contains no slash and no space (so
    a slash-bearing title yields a single flat filename), and the two
    spec examples hold.  The rule is a pure function of title and
    publishedAt, so repeated calls compute the identical path. -/
theorem file_naming_deterministic_sanitizing :
    (∀ title publishedAt : String,
        videoTitleOf title publishedAt ++ ".txt" = specFileName title publishedAt)
    ∧ (∀ title : String, (sanitizeTitle title).data.contains '/' = false
        ∧ (sanitizeTitle title).data.contains ' ' = false)
    ∧ filePathOf "data" "My Video" "2023-04-05T12:00:00.000Z"
        = "data/2023-04-05_My_Video.txt"
    ∧ sanitizeTitle "A/B Test" = "A_B_Test" := by
  refine ⟨?_, fun t => ⟨sanitizeTitle_no_slash t, sanitizeTitle_no_space t⟩,
    by decide, by decide⟩
  intro title p
  rw [show videoTitleOf title p = datePart p ++ "_" ++ sanitizeTitle title from rfl,
    datePart_slice_first]
  rfl

/-- Claim C5 counterexample: the file written for a two-line transcript
    holds a trailing space after the last text (`f"{line['text']} "` per
    line), so the contents are not the texts separated by single spaces. -/
theorem transcript_contents_trailing_space :
    fsRead (parse_video ⟨some "v5", some "Talk", some "2024-02-02T00:00:00Z", some "u5"⟩
        "data" [] (fun _ => FetchResult.ok [⟨"hello"⟩, ⟨"world"⟩]) (fun _ => false)).fs
        (filePathOf "data" "Talk" "2024-02-02T00:00:00Z") = some "hello world "
    ∧ ("hello world " : String) ≠ String.intercalate " " ["hello", "world"] := by
  exact ⟨by decide, by decide⟩

/-- Claim C5 (amended): on a successful fetch the full file contents are
    every transcript line's text each followed by one space — equivalently,
    for a non-empty transcript, the texts joined by single spaces plus one
    trailing space (and the empty string for an empty transcript); no line
    break or timestamp is preserved. -/
theorem transcript_contents_space_joined (i t p u dir : String) (fs : FS)
    (ts : List TLine) (provider : Nat → FetchResult) (writeFails : String → Bool)
    (hne : fsExists fs (filePathOf dir t p) = false)
    (hok : provider 0 = FetchResult.ok ts)
    (hw : writeFails (filePathOf dir t p) = false) :
    fsRead (parse_video ⟨some i, some t, some p, some u⟩ dir fs provider writeFails).fs
        (filePathOf dir t p) = some (transcriptText ts)
    ∧ (ts ≠ [] → transcriptText ts = String.intercalate " " (ts.map TLine.text) ++ " ")
    ∧ transcriptText [] = "" := by
  refine ⟨?_, transcriptText_intercalate ts, rfl⟩
  have hpath : osPathJoin dir (datePart p ++ "_" ++ sanitizeTitle t ++ ".txt")
      = filePathOf dir t p := rfl
  have h1 : (parse_video ⟨some i, some t, some p, some u⟩ dir fs provider writeFails).fs
      = fs ++ [(filePathOf dir t p, transcriptText ts)] := by
    simp only [parse_video, hpath, hne, hok]
    simp [writeTranscript, hw, fsWrite_of_not_exists fs _ _ hne]
  rw [h1, fsRead_append_self fs _ _ hne]

/-- Claim C5 witness: concrete two-line transcript written at the derived path. -/
theorem transcript_contents_space_joined_witness :
    fsRead (parse_video ⟨some "v6", some "Clip", some "2024-03-03T00:00:00Z", some "u6"⟩
        "data" [] (fun _ => FetchResult.ok [⟨"hello"⟩, ⟨"world"⟩]) (fun _ => false)).fs
        (filePathOf "data" "Clip" "2024-03-03T00:00:00Z")
      = some (transcriptText [⟨"hello"⟩, ⟨"world"⟩]) := by
  have h := transcript_contents_space_joined "v6" "Clip" "2024-03-03T00:00:00Z" "u6"
    "data" [] [⟨"hello"⟩, ⟨"world"⟩]
    (fun _ => FetchResult.ok [⟨"hello"⟩, ⟨"world"⟩]) (fun _ => false) rfl rfl rfl
  exact h.1

/-- Claim C6: the enumerator returns exactly the items of the pages it
    consumed, in order, each descriptor's url being the watch URL of its
    id (`toVideoInfo`); before every further page request the previous
    response carried a token and the accumulated count was below
    `maxResults`; and when the loop stops before exhausting the response
    stream, the last consumed page had no token or the accumulated count
    had reached `maxResults` (so the result may exceed `maxResults` but no
    further page is requested once the cap is reached). -/
theorem get_video_info_pagination (pages : List Page) (maxResults : Nat) :
    (get_video_info pages maxResults).1
        = ((pages.take (get_video_info pages maxResults).2).flatMap Page.items).map toVideoInfo
    ∧ (∀ v, v ∈ (get_video_info pages maxResults).1 →
        v.url = "https://www.youtube.com/watch?v=" ++ v.id)
    ∧ (get_video_info pages maxResults).2 ≤ pages.length
    ∧ (∀ j pg, j + 1 < (get_video_info pages maxResults).2 → pages[j]? = some pg →
        pg.nextPageToken ≠ none
        ∧ (((pages.take (j + 1)).flatMap Page.items).map toVideoInfo).length < maxResults)
    ∧ ((get_video_info pages maxResults).2 < pages.length →
        ∃ pg, pages[(get_video_info pages maxResults).2 - 1]? = some pg
          ∧ (pg.nextPageToken = none
            ∨ maxResults ≤ (get_video_info pages maxResults).1.length)) := by
  obtain ⟨h1, h2, _h3, h4, h5⟩ := pageLoop_spec maxResults pages []
  rw [get_video_info]
  refine ⟨by simpa using h1, ?_, h2, by simpa using h4, h5⟩
  intro v hv
  rw [show (pageLoop maxResults pages []).1
      = [] ++ ((pages.take (pageLoop maxResults pages []).2).flatMap Page.items).map toVideoInfo
      from h1] at hv
  simp only [List.nil_append, List.mem_map] at hv
  obtain ⟨item, _, rfl⟩ := hv
  rfl

/-- Claim C6 witness: on the demo stream (three token-carrying pages of two
    items, then a tokenless page) the enumerator returns all six items in
    order. -/
theorem get_video_info_pagination_witness :
    (get_video_info demoPages 500000).1
        = ((demoPages.take (get_video_info demoPages 500000).2).flatMap Page.items).map
            toVideoInfo
    ∧ (get_video_info demoPages 500000).2 ≤ demoPages.length
    ∧ (get_video_info demoPages 500000).1.length = 6 :=
  ⟨(get_video_info_pagination demoPages 500000).1,
   (get_video_info_pagination demoPages 500000).2.2.1, by decide⟩

/-- Claim C7: on a not-found report from the first fetch, `parse_video`
    performs exactly one more network fetch of the same video id (its
    network-call list is `[id, id]` whatever the second outcome); if the
    second attempt raises any error it logs and returns with the
    filesystem unchanged, and if it returns a transcript the file is
    written normally. -/
theorem notfound_retries_same_id_once (i t p u dir : String) (fs : FS)
    (provider : Nat → FetchResult) (writeFails : String → Bool)
    (hne : fsExists fs (filePathOf dir t p) = false)
    (hp : provider 0 = FetchResult.notFound) :
    (parse_video ⟨some i, some t, some p, some u⟩ dir fs provider writeFails).netCalls
        = [i, i]
    ∧ (∀ ts, provider 1 = FetchResult.ok ts → writeFails (filePathOf dir t p) = false →
        parse_video ⟨some i, some t, some p, some u⟩ dir fs provider writeFails
          = ⟨fsWrite fs (filePathOf dir t p) (transcriptText ts),
             [LogEvent.trying (filePathOf dir t p),
              LogEvent.saved u (filePathOf dir t p)], [i, i], none⟩)
    ∧ ((∀ ts, provider 1 ≠ FetchResult.ok ts) →
        parse_video ⟨some i, some t, some p, some u⟩ dir fs provider writeFails
          = ⟨fs, [LogEvent.trying (filePathOf dir t p),
                  LogEvent.errTranslated u (videoTitleOf t p)], [i, i], none⟩) := by
  have hpath : osPathJoin dir (datePart p ++ "_" ++ sanitizeTitle t ++ ".txt")
      = filePathOf dir t p := rfl
  refine ⟨?_, ?_, ?_⟩
  · simp only [parse_video, hp, hpath, hne]
    cases h1 : provider 1 with
    | ok ts =>
      simp [writeTranscript, outerHandler]
      split <;> simp
    | disabled => simp
    | notFound => simp
    | err m => simp
  · intro ts h1 hw
    simp only [parse_video, hp, hpath, hne, h1]
    simp [writeTranscript, hw]
  · intro hfail
    simp only [parse_video, hp, hpath, hne]
    cases h1 : provider 1 with
    | ok ts => exact absurd h1 (hfail ts)
    | disabled => simp [filePathOf, videoTitleOf]
    | notFound => simp [filePathOf, videoTitleOf]
    | err m => simp [filePathOf, videoTitleOf]

/-- Claim C7 witness: first call not-found, second call succeeds; the two
    network calls fetched the same id. -/
theorem notfound_retries_same_id_once_witness :
    (parse_video ⟨some "v7", some "T7", some "2024-01-01", some "u7"⟩ "data" []
        (fun n => if n = 0 then FetchResult.notFound else FetchResult.ok [⟨"hi"⟩])
        (fun _ => false)).netCalls = ["v7", "v7"] := by
  have h := notfound_retries_same_id_once "v7" "T7" "2024-01-01" "u7" "data" []
    (fun n => if n = 0 then FetchResult.notFound else FetchResult.ok [⟨"hi"⟩])
    (fun _ => false) rfl rfl
  exact h.1

/-- Claim C8: when the first fetch reports transcripts disabled,
    `parse_video` logs and returns with the filesystem unchanged (no file
    created), exactly one network call (no retry) and no escaping
    exception. -/
theorem disabled_no_file_no_retry (i t p u dir : String) (fs : FS)
    (provider : Nat → FetchResult) (writeFails : String → Bool)
    (hne : fsExists fs (filePathOf dir t p) = false)
    (hp : provider 0 = FetchResult.disabled) :
    parse_video ⟨some i, some t, some p, some u⟩ dir fs provider writeFails
      = ⟨fs, [LogEvent.trying (filePathOf dir t p),
              LogEvent.noTranscripts u (videoTitleOf t p)], [i], none⟩ := by
  have hpath : osPathJoin dir (datePart p ++ "_" ++ sanitizeTitle t ++ ".txt")
      = filePathOf dir t p := rfl
  simp only [parse_video, hp, hpath, hne]
  simp [filePathOf, videoTitleOf]

/-- Claim C8 witness: concrete disabled video — unchanged filesystem, one
    network call, no exception. -/
theorem disabled_no_file_no_retry_witness :
    parse_video ⟨some "v8", some "T8", some "2024-04-04", some "u8"⟩ "data" []
        (fun _ => FetchResult.disabled) (fun _ => false)
      = ⟨[], [LogEvent.trying (filePathOf "data" "T8" "2024-04-04"),
              LogEvent.noTranscripts "u8" (videoTitleOf "T8" "2024-04-04")], ["v8"], none⟩ :=
  disabled_no_file_no_retry "v8" "T8" "2024-04-04" "u8" "data" []
    (fun _ => FetchResult.disabled) (fun _ => false) rfl rfl

/-- Claim C9: in the id-to-name dict built by `run`, looking up an
    identifier yields the last supplied name that resolved to it (so every
    earlier duplicate — including every earlier unresolved name when
    several resolve to `None` — is absent), and the dict holds one entry
    per distinct identifier. -/
theorem channel_dict_keeps_last_name (resolve : String → Option String)
    (names : List String) (k : Option String) :
    dictLookup (buildChannelDict resolve names) k
        = (names.filter (fun n => resolve n == k)).getLast?
    ∧ ((buildChannelDict resolve names).map Prod.fst).Nodup := by
  constructor
  · rw [buildChannelDict, buildChannelDict_go_lookup]
    rw [show dictLookup ([] : List (Option String × String)) k = none from rfl]
    exact Option.orElse_none _
  · exact buildChannelDict_go_nodup resolve names [] (by simp)

/-- Claim C9 witness: two names that both fail to resolve collapse to the
    single key `none`, mapped to the later name. -/
theorem channel_dict_keeps_last_name_witness :
    dictLookup (buildChannelDict (fun _ => none) ["alpha", "beta"]) none = some "beta" :=
  (channel_dict_keeps_last_name (fun _ => none) ["alpha", "beta"] none).1.trans (by decide)

/-- Claim C10: the orchestration trace of `run` decomposes, for every
    channel index, into the complete segments of all earlier channels,
    then this channel's enumeration event, then a launch event for every
    one of its videos (all submitted before the join), then its join
    barrier, then the segments of all later channels — so all of channel
    N's per-video tasks are launched at once and joined before channel
    N+1's enumeration begins. -/
theorem run_sequential_per_channel (resolve : String → Option String)
    (enumerate : Option String → List VideoInfo) (names : List String)
    (n : Nat) (h : n < (buildChannelDict resolve names).length) :
    run resolve enumerate names
      = ((buildChannelDict resolve names).take n).flatMap (channelSegment enumerate)
        ++ channelSegment enumerate ((buildChannelDict resolve names).get ⟨n, h⟩)
        ++ ((buildChannelDict resolve names).drop (n + 1)).flatMap (channelSegment enumerate) := by
  rw [run_eq_flatMap]
  conv_lhs => rw [← List.take_append_drop n (buildChannelDict resolve names),
    List.drop_eq_getElem_cons h]
  rw [List.flatMap_append, List.flatMap_cons]
  simp [List.append_assoc, List.get_eq_getElem]

/-- Claim C10 witness: concrete two-channel run decomposed at the first
    channel. -/
theorem run_sequential_per_channel_witness :
    run demoResolve demoEnum ["chanA", "ghost"]
      = ((buildChannelDict demoResolve ["chanA", "ghost"]).take 0).flatMap
          (channelSegment demoEnum)
        ++ channelSegment demoEnum
            ((buildChannelDict demoResolve ["chanA", "ghost"]).get ⟨0, by decide⟩)
        ++ ((buildChannelDict demoResolve ["chanA", "ghost"]).drop 1).flatMap
            (channelSegment demoEnum) :=
  run_sequential_per_channel demoResolve demoEnum ["chanA", "ghost"] 0 (by decide)

end YTD
